import Mathlib

/-!
Verification of the connection-pool, packet-reading, prepared-statement and
result-set subsystems of an asynchronous MySQL client library.

The definitions below are shallow embeddings of the Rust source:
machine integers become `Nat`/`Int` (with explicit `% 256` where `u8`
wrapping occurs), `Vec` push/pop become list operations, futures become
explicit step functions over the inputs they would have awaited, and
monotonic instants become an `Int` count of seconds (only differences of
instants are ever observed by the code, via `Duration::num_seconds`).
-/

namespace MysqlAsync

/-! ## Pool model (src/conn/pool/mod.rs)

A connection, as seen by the pool: the fields of `Conn` that
`Pool::return_conn`, `Pool::poll` and `Drop for Conn` consult.
`has_result` models `conn.has_result.is_some()` and `stream` models
`conn.stream.is_some()`. -/

structure PoolConn where
  last_io : Int
  wait_timeout : Nat
  has_result : Bool
  in_transaction : Bool
  stream : Bool
deriving Repr, DecidableEq

/-- State of `pool::Inner`.  `idle` keeps the connections themselves
(`Vec<Conn>`, push/pop at the tail); the other collections hold futures
whose internal state the pool never inspects, so only their lengths are
kept.  `tasks` is the number of parked waiter tasks. -/
structure PoolInner where
  closed : Bool
  new : Nat
  idle : List PoolConn
  disconnecting : Nat
  dropping : Nat
  rollback : Nat
  tasks : Nat
deriving Repr, DecidableEq

/-- Result of `Pool::return_conn`: the new pool state together with the
number of parked tasks that were unparked during the call. -/
structure ReturnOut where
  pool : PoolInner
  woken : Nat
deriving Repr, DecidableEq

/-- The eviction ceiling used by `return_conn`: `conn_ttl` if configured,
else the connection's `wait_timeout` (both cast to `i64` seconds in the
source). -/
def connTtlCeiling (conn_ttl : Option Nat) (conn : PoolConn) : Int :=
  match conn_ttl with
  | some t => (t : Int)
  | none => (conn.wait_timeout : Int)

/-- Embedding of `Pool::return_conn` (pool/mod.rs lines 122-154).
`now` is the current instant; `now - conn.last_io` is
`(SteadyTime::now() - conn.last_io).num_seconds()`.  Note that the
closed-pool and over-ttl paths return early, before the task-unparking
loop, and that the `while let Some(task) = tasks.pop()` loop unparks
every parked task. -/
def return_conn (pool_min : Nat) (conn_ttl : Option Nat) (p : PoolInner)
    (conn : PoolConn) (now : Int) : ReturnOut :=
  if p.closed then
    ⟨p, 0⟩
  else
    let idle_duration : Int := now - conn.last_io
    let ttl : Int := connTtlCeiling conn_ttl conn
    if idle_duration > ttl then
      ⟨{ p with disconnecting := p.disconnecting + 1 }, 0⟩
    else
      let p1 :=
        if conn.has_result then
          { p with dropping := p.dropping + 1 }
        else if conn.in_transaction then
          { p with rollback := p.rollback + 1 }
        else if p.idle.length ≥ pool_min then
          { p with disconnecting := p.disconnecting + 1 }
        else
          { p with idle := p.idle ++ [conn] }
      ⟨{ p1 with tasks := 0 }, p1.tasks⟩

/-- Embedding of `Pool::take_conn`: pop an idle connection from the tail
of `idle`. -/
def take_conn (p : PoolInner) : Option (PoolConn × PoolInner) :=
  match p.idle.getLast? with
  | some conn => some (conn, { p with idle := p.idle.dropLast })
  | none => none

/-- Outcome of one `Pool::poll` decision. -/
inductive PollRes
  | ready (conn : PoolConn) (p : PoolInner)
  | launched (p : PoolInner)
  | parked (p : PoolInner)
  | errDisconnected
deriving Repr, DecidableEq

/-- Embedding of the decision core of `Pool::poll` (pool/mod.rs lines
272-294), taken after `handle_futures` has run: fail if closed, lease an
idle connection if one exists, otherwise launch a `NewConn` future when
`new.len() == 0 && idle.len() < max` (the source then re-enters `poll`,
which parks the task since `new` is now non-empty), otherwise park. -/
def pollStep (pool_max : Nat) (p : PoolInner) : PollRes :=
  if p.closed then
    .errDisconnected
  else
    match take_conn p with
    | some (conn, p1) => .ready conn p1
    | none =>
      if p.new = 0 ∧ p.idle.length < pool_max then
        .launched { p with new := p.new + 1 }
      else
        .parked { p with tasks := p.tasks + 1 }

/-- Number of live connections: connections leased to borrowers plus all
pool collections (spec section 3, `Pool.Inner` invariant). -/
def liveConns (leased : Nat) (p : PoolInner) : Nat :=
  leased + p.idle.length + p.new + p.disconnecting + p.dropping + p.rollback

/-- Embedding of `impl Drop for Conn` (pool/mod.rs lines 297-306).
`has_pool` models `self.pool.take()` yielding `Some`.  `Conn::take` is
not under src/; Modelled from the spec (section 9: on drop the
connection self-returns if the pool upgrades) as a field-preserving
move, so the dropped value is `conn` itself. -/
def conn_drop (pool_min : Nat) (conn_ttl : Option Nat) (has_pool : Bool)
    (p : PoolInner) (conn : PoolConn) (now : Int) : PoolInner :=
  if has_pool then
    if conn.stream then (return_conn pool_min conn_ttl p conn now).pool
    else p
  else p

/-! ## Pool theorems -/

/-- Pool state reachable with `pool_max = 1`: one connection leased, all
collections empty. -/
def poolOneLeased : PoolInner :=
  { closed := false, new := 0, idle := [], disconnecting := 0,
    dropping := 0, rollback := 0, tasks := 0 }

/-- Claim C1: at every reachable pool state the number of live
connections is at most `pool_max`, and `Pool::poll` launches a handshake
future only when `new` is empty and the total is strictly below
`pool_max`.  The code checks `idle.len() < max` instead (and `idle` is
necessarily empty at that point), ignoring leased connections: with
`pool_max = 1` and one leased connection, `poll` launches a new
handshake, bringing the live total to 2 > 1. -/
theorem pool_poll_launch_exceeds_pool_max :
    pollStep 1 poolOneLeased = .launched { poolOneLeased with new := 1 } ∧
    liveConns 1 poolOneLeased = 1 ∧
    liveConns 1 { poolOneLeased with new := 1 } = 2 ∧
    ¬ (liveConns 1 { poolOneLeased with new := 1 } ≤ 1) := by
  decide

/-- Claim C2: a connection returned to an open pool within the idle
ceiling is routed by exactly this priority: pending result → `dropping`;
else in transaction → `rollback`; else `idle.len() ≥ pool_min` →
`disconnecting`; else pushed onto `idle`. -/
theorem return_conn_routing (pool_min : Nat) (conn_ttl : Option Nat)
    (p : PoolInner) (conn : PoolConn) (now : Int)
    (hopen : p.closed = false)
    (hfresh : ¬ (now - conn.last_io > connTtlCeiling conn_ttl conn)) :
    (conn.has_result = true →
      (return_conn pool_min conn_ttl p conn now).pool.dropping = p.dropping + 1 ∧
      (return_conn pool_min conn_ttl p conn now).pool.idle = p.idle ∧
      (return_conn pool_min conn_ttl p conn now).pool.rollback = p.rollback ∧
      (return_conn pool_min conn_ttl p conn now).pool.disconnecting = p.disconnecting) ∧
    (conn.has_result = false → conn.in_transaction = true →
      (return_conn pool_min conn_ttl p conn now).pool.rollback = p.rollback + 1 ∧
      (return_conn pool_min conn_ttl p conn now).pool.idle = p.idle ∧
      (return_conn pool_min conn_ttl p conn now).pool.dropping = p.dropping ∧
      (return_conn pool_min conn_ttl p conn now).pool.disconnecting = p.disconnecting) ∧
    (conn.has_result = false → conn.in_transaction = false →
      p.idle.length ≥ pool_min →
      (return_conn pool_min conn_ttl p conn now).pool.disconnecting = p.disconnecting + 1 ∧
      (return_conn pool_min conn_ttl p conn now).pool.idle = p.idle ∧
      (return_conn pool_min conn_ttl p conn now).pool.dropping = p.dropping ∧
      (return_conn pool_min conn_ttl p conn now).pool.rollback = p.rollback) ∧
    (conn.has_result = false → conn.in_transaction = false →
      p.idle.length < pool_min →
      (return_conn pool_min conn_ttl p conn now).pool.idle = p.idle ++ [conn] ∧
      (return_conn pool_min conn_ttl p conn now).pool.dropping = p.dropping ∧
      (return_conn pool_min conn_ttl p conn now).pool.rollback = p.rollback ∧
      (return_conn pool_min conn_ttl p conn now).pool.disconnecting = p.disconnecting) := by
  refine ⟨fun h1 => ?_, fun h1 h2 => ?_, fun h1 h2 h3 => ?_, fun h1 h2 h3 => ?_⟩
  · simp [return_conn, hopen, hfresh, h1]
  · simp [return_conn, hopen, hfresh, h1, h2]
  · simp [return_conn, hopen, hfresh, h1, h2, h3]
  · have h3n : ¬ (p.idle.length ≥ pool_min) := Nat.not_le.mpr h3
    simp [return_conn, hopen, hfresh, h1, h2, h3n]

/-- Concrete healthy connection used in witnesses and counterexamples. -/
def connClean : PoolConn :=
  { last_io := 0, wait_timeout := 28800, has_result := false,
    in_transaction := false, stream := true }

/-- Witness for `return_conn_routing` at a concrete open pool and
fresh clean connection: the connection lands on `idle`. -/
theorem return_conn_routing_witness :
    (return_conn 10 none poolOneLeased connClean 5).pool.idle =
      poolOneLeased.idle ++ [connClean] ∧
    (return_conn 10 none poolOneLeased connClean 5).pool.dropping =
      poolOneLeased.dropping ∧
    (return_conn 10 none poolOneLeased connClean 5).pool.rollback =
      poolOneLeased.rollback ∧
    (return_conn 10 none poolOneLeased connClean 5).pool.disconnecting =
      poolOneLeased.disconnecting :=
  (return_conn_routing 10 none poolOneLeased connClean 5 rfl (by decide)).2.2.2
    rfl rfl (by decide)

/-- Pool state with two parked waiter tasks and nothing else. -/
def poolTwoWaiters : PoolInner :=
  { closed := false, new := 0, idle := [], disconnecting := 0,
    dropping := 0, rollback := 0, tasks := 2 }

/-- Claim C3 counterexample: with two waiters parked, returning a
healthy connection unparks both of them, not exactly one. -/
theorem return_conn_wakes_all_not_one :
    0 < poolTwoWaiters.tasks ∧
    (return_conn 10 none poolTwoWaiters connClean 0).woken = 2 ∧
    ¬ ((return_conn 10 none poolTwoWaiters connClean 0).woken = 1) := by
  decide

/-- Claim C3 as amended: on the over-the-ceiling (TTL) path `return_conn`
returns early and wakes no waiter; on every other routing path of an
open pool it unparks every parked waiter, leaving `tasks` empty. -/
theorem return_conn_wake_behavior (pool_min : Nat) (conn_ttl : Option Nat)
    (p : PoolInner) (conn : PoolConn) (now : Int)
    (hopen : p.closed = false) :
    ((now - conn.last_io > connTtlCeiling conn_ttl conn) →
      (return_conn pool_min conn_ttl p conn now).woken = 0) ∧
    (¬ (now - conn.last_io > connTtlCeiling conn_ttl conn) →
      (return_conn pool_min conn_ttl p conn now).woken = p.tasks ∧
      (return_conn pool_min conn_ttl p conn now).pool.tasks = 0) := by
  constructor
  · intro hover
    simp [return_conn, hopen, hover]
  · intro hfresh
    cases h1 : conn.has_result <;> cases h2 : conn.in_transaction <;>
      by_cases h3 : p.idle.length ≥ pool_min <;>
        simp [return_conn, hopen, hfresh, h1, h2, h3]

/-- Witness for `return_conn_wake_behavior`: both waiters of
`poolTwoWaiters` are woken by a fresh return. -/
theorem return_conn_wake_behavior_witness :
    (return_conn 10 none poolTwoWaiters connClean 0).woken =
      poolTwoWaiters.tasks ∧
    (return_conn 10 none poolTwoWaiters connClean 0).pool.tasks = 0 :=
  (return_conn_wake_behavior 10 none poolTwoWaiters connClean 0 rfl).2
    (by decide)

/-- Empty open pool with no waiters. -/
def poolEmptyOpen : PoolInner :=
  { closed := false, new := 0, idle := [], disconnecting := 0,
    dropping := 0, rollback := 0, tasks := 0 }

/-- Claim C4 counterexample: with `conn_ttl = 0` a connection released
with idle duration zero is pushed onto `idle`, not queued into
`disconnecting`: the source compares with strict `>`, and `0 > 0` is
false. -/
theorem ttl_zero_immediate_release_goes_idle :
    (return_conn 10 (some 0) poolEmptyOpen connClean 0).pool.idle = [connClean] ∧
    (return_conn 10 (some 0) poolEmptyOpen connClean 0).pool.disconnecting = 0 := by
  decide

/-- Claim C4 as amended: on return of a clean connection (no pending
result, no transaction, idle room below `pool_min`) the TTL rule queues
it into `disconnecting` exactly when the idle duration is strictly
greater than the ceiling; otherwise it is pushed onto `idle`.  In
particular `conn_ttl = 0` with a zero idle duration does not disconnect. -/
theorem return_conn_ttl_strict (pool_min : Nat) (conn_ttl : Option Nat)
    (p : PoolInner) (conn : PoolConn) (now : Int)
    (hopen : p.closed = false)
    (hclean : conn.has_result = false)
    (hnotx : conn.in_transaction = false)
    (hroom : p.idle.length < pool_min) :
    ((return_conn pool_min conn_ttl p conn now).pool.disconnecting =
        p.disconnecting + 1 ↔
      now - conn.last_io > connTtlCeiling conn_ttl conn) ∧
    ((return_conn pool_min conn_ttl p conn now).pool.idle = p.idle ++ [conn] ↔
      ¬ (now - conn.last_io > connTtlCeiling conn_ttl conn)) := by
  have hroomn : ¬ (p.idle.length ≥ pool_min) := Nat.not_le.mpr hroom
  by_cases hover : now - conn.last_io > connTtlCeiling conn_ttl conn
  · simp [return_conn, hopen, hover]
  · simp [return_conn, hopen, hover, hclean, hnotx, hroomn]

/-- Witness for `return_conn_ttl_strict` at `conn_ttl = 0` and idle
duration zero: the connection goes to `idle`. -/
theorem return_conn_ttl_strict_witness :
    (return_conn 10 (some 0) poolEmptyOpen connClean 0).pool.idle =
      poolEmptyOpen.idle ++ [connClean] :=
  ((return_conn_ttl_strict 10 (some 0) poolEmptyOpen connClean 0 rfl rfl rfl
    (by decide)).2).mpr (by decide)

/-- Claim C9: dropping a pooled connection whose stream has been moved
out leaves the pool state (every collection) unchanged; only a dropped
connection whose stream is present is routed through `return_conn`. -/
theorem conn_drop_streamless_no_return (pool_min : Nat)
    (conn_ttl : Option Nat) (p : PoolInner) (conn : PoolConn) (now : Int) :
    (conn.stream = false →
      conn_drop pool_min conn_ttl true p conn now = p) ∧
    (conn.stream = true →
      conn_drop pool_min conn_ttl true p conn now =
        (return_conn pool_min conn_ttl p conn now).pool) := by
  constructor
  · intro h
    simp [conn_drop, h]
  · intro h
    simp [conn_drop, h]

/-- Connection whose stream has been moved out (mid-command). -/
def connStreamless : PoolConn :=
  { last_io := 0, wait_timeout := 28800, has_result := false,
    in_transaction := false, stream := false }

/-- Witness for `conn_drop_streamless_no_return`: dropping a streamless
connection leaves the concrete pool untouched. -/
theorem conn_drop_streamless_no_return_witness :
    conn_drop 10 none true poolTwoWaiters connStreamless 0 = poolTwoWaiters :=
  (conn_drop_streamless_no_return 10 none poolTwoWaiters connStreamless 0).1
    rfl

/-! ## Packet reading (src/connection_like/read_packet.rs)

The `proto` packet model is not under src/; Modelled from the spec
(section 4.2): a packet carries a discriminant and, for OK/EOF, the
parsed `affected_rows`, `last_insert_id`, `status_flags`, `warnings`
fields that `ReadPacket::poll` copies onto the connection. -/

inductive PacketKind
  | ok
  | eof
  | err
  | other
deriving Repr, DecidableEq

/-- A received packet together with its parsed OK/EOF fields. -/
structure Packet where
  kind : PacketKind
  affected_rows : Nat
  last_insert_id : Nat
  status : Nat
  warnings : Nat
deriving Repr, DecidableEq

/-- Connection fields touched by `ReadPacket::poll`.  `seq_id` is a `u8`
(values below 256, wrapping add is `% 256`); `last_io` is set by
`touch()`. -/
structure ConnSt where
  seq_id : Nat
  affected_rows : Nat
  last_insert_id : Nat
  status : Nat
  warnings : Nat
  last_io : Int
deriving Repr, DecidableEq

inductive ReadErr
  | packetOutOfOrder
  | server
  | connectionClosed
deriving Repr, DecidableEq

/-- Embedding of `ReadPacket::poll` (read_packet.rs lines 43-80) once
the stream future is ready.  `recv` is the item the stream produced
(`None` = end of stream).  The returned `ConnSt` is the connection state
at the moment `poll` returns, so that the error paths show which fields
were (not) mutated: the out-of-order and ERR paths return before any
field is written. -/
def read_packet_poll (c : ConnSt) (now : Int) (recv : Option (Packet × Nat)) :
    ConnSt × Except ReadErr Packet :=
  match recv with
  | none => (c, .error .connectionClosed)
  | some (packet, seq_id) =>
    if c.seq_id ≠ seq_id then
      (c, .error .packetOutOfOrder)
    else
      match packet.kind with
      | .err => (c, .error .server)
      | .ok =>
        let c1 := { c with affected_rows := packet.affected_rows,
                           last_insert_id := packet.last_insert_id,
                           status := packet.status,
                           warnings := packet.warnings }
        ({ c1 with last_io := now, seq_id := (seq_id + 1) % 256 }, .ok packet)
      | .eof =>
        let c1 := { c with status := packet.status,
                           warnings := packet.warnings }
        ({ c1 with last_io := now, seq_id := (seq_id + 1) % 256 }, .ok packet)
      | .other =>
        ({ c with last_io := now, seq_id := (seq_id + 1) % 256 }, .ok packet)

/-- Claim C5: for every packet received, `ReadPacket` fails with
`PacketOutOfOrder` iff the received sequence id differs from the
connection's expected `seq_id`; on that path no connection field is
updated; and whenever the future resolves, the connection's `seq_id` has
been set to `received + 1 mod 256`. -/
theorem read_packet_out_of_order_iff (c : ConnSt) (now : Int)
    (packet : Packet) (seq_id : Nat) :
    ((read_packet_poll c now (some (packet, seq_id))).2 =
        .error .packetOutOfOrder ↔ seq_id ≠ c.seq_id) ∧
    (seq_id ≠ c.seq_id →
      (read_packet_poll c now (some (packet, seq_id))).1 = c) ∧
    (∀ pkt, (read_packet_poll c now (some (packet, seq_id))).2 = .ok pkt →
      (read_packet_poll c now (some (packet, seq_id))).1.seq_id =
        (seq_id + 1) % 256) := by
  by_cases h : c.seq_id = seq_id
  · refine ⟨?_, ?_, ?_⟩
    · cases hk : packet.kind <;>
        simp [read_packet_poll, h, hk]
    · intro hne
      exact absurd h.symm hne
    · intro pkt hok
      cases hk : packet.kind <;>
        simp_all [read_packet_poll, h, hk]
  · have h' : c.seq_id ≠ seq_id := h
    refine ⟨?_, ?_, ?_⟩
    · constructor
      · intro _
        exact Ne.symm h
      · intro _
        simp [read_packet_poll, h']
    · intro _
      simp [read_packet_poll, h']
    · intro pkt hok
      simp [read_packet_poll, h'] at hok

/-- Concrete connection state and packet for the C5 witness. -/
def connStC5 : ConnSt :=
  { seq_id := 5, affected_rows := 0, last_insert_id := 0, status := 0,
    warnings := 0, last_io := 0 }

/-- OK packet used in witnesses. -/
def okPacket : Packet :=
  { kind := .ok, affected_rows := 3, last_insert_id := 7, status := 2,
    warnings := 1 }

/-- Witness for `read_packet_out_of_order_iff`: receiving seq id 9 while
expecting 5 fails with `PacketOutOfOrder` and leaves the connection
unchanged. -/
theorem read_packet_out_of_order_iff_witness :
    (read_packet_poll connStC5 11 (some (okPacket, 9))).2 =
        .error .packetOutOfOrder ∧
    (read_packet_poll connStC5 11 (some (okPacket, 9))).1 = connStC5 :=
  ⟨((read_packet_out_of_order_iff connStC5 11 okPacket 9).1).mpr (by decide),
   ((read_packet_out_of_order_iff connStC5 11 okPacket 9).2.1) (by decide)⟩

/-! ## Connection bootstrap init statements
(src/conn/futures/new_conn.rs)

The steps of `NewConn::poll` that follow the handshake: read
`max_allowed_packet`, read `wait_timeout`, then run the configured init
statements.  Each `Out::ReadWaitTimeout`/`Out::CollectAll` arm looks up
`opts.get_init().get(init.len() - self.init_len)` and, on `Some`, issues
that query (whose result the following `CollectAll` step discards) and
decrements `init_len`; on `None` it resolves to the connection. -/

inductive NewConnStep
  | readMaxAllowedPacket
  | readWaitTimeout
  | query
  | collectAll
  | done
deriving Repr, DecidableEq

/-- State of the `NewConn` future after the handshake: the current step,
the `init_len` counter, and the ghost trace of init statements issued so
far (in order). -/
structure NewConnSt where
  step : NewConnStep
  init_len : Nat
  executed : List String
deriving Repr, DecidableEq

/-- One transition of `NewConn::poll` (new_conn.rs lines 147-173), with
the awaited sub-future's completion as input. -/
def newConnAdvance (init : List String) (s : NewConnSt) : NewConnSt :=
  match s.step with
  | .readMaxAllowedPacket => { s with step := .readWaitTimeout }
  | .readWaitTimeout =>
    match init.get? (init.length - s.init_len) with
    | some q =>
      { step := .query, init_len := s.init_len - 1,
        executed := s.executed ++ [q] }
    | none => { s with step := .done }
  | .query => { s with step := .collectAll }
  | .collectAll =>
    match init.get? (init.length - s.init_len) with
    | some q =>
      { step := .query, init_len := s.init_len - 1,
        executed := s.executed ++ [q] }
    | none => { s with step := .done }
  | .done => s

/-- Iterate `newConnAdvance` a given number of steps. -/
def newConnRun (init : List String) (s : NewConnSt) : Nat → NewConnSt
  | 0 => s
  | fuel + 1 => newConnRun init (newConnAdvance init s) fuel

/-- Running the init loop from the `CollectAll` arm with `init_len = k`
issues exactly the last `k` configured statements, in order, and ends in
`done`. -/
theorem newConnRun_collectAll (init : List String) :
    ∀ k, k ≤ init.length → ∀ acc,
      newConnRun init ⟨.collectAll, k, acc⟩ (2 * k + 1) =
        ⟨.done, 0, acc ++ init.drop (init.length - k)⟩ := by
  intro k
  induction k with
  | zero =>
    intro _ acc
    have hget : init.get? (init.length - 0) = none := by
      simp [List.get?_eq_none]
    simp [newConnRun, newConnAdvance, hget]
  | succ n ih =>
    intro hk acc
    have hidx : init.length - (n + 1) < init.length := by omega
    have hget : init.get? (init.length - (n + 1)) =
        some (init.get ⟨init.length - (n + 1), hidx⟩) :=
      List.get?_eq_get hidx
    have hdrop : init.drop (init.length - (n + 1)) =
        init.get ⟨init.length - (n + 1), hidx⟩ ::
          init.drop (init.length - n) := by
      have h1 : init.length - n = (init.length - (n + 1)) + 1 := by omega
      rw [h1]
      exact List.drop_eq_get_cons hidx
    have e1 : newConnRun init ⟨.collectAll, n + 1, acc⟩ (2 * (n + 1) + 1) =
        newConnRun init (newConnAdvance init ⟨.collectAll, n + 1, acc⟩)
          (2 * n + 2) := rfl
    have e2 : newConnAdvance init ⟨.collectAll, n + 1, acc⟩ =
        ⟨.query, n, acc ++ [init.get ⟨init.length - (n + 1), hidx⟩]⟩ := by
      simp only [newConnAdvance]
      rw [hget]
      rfl
    have e3 : newConnRun init
        ⟨.query, n, acc ++ [init.get ⟨init.length - (n + 1), hidx⟩]⟩
        (2 * n + 2) =
        newConnRun init
          ⟨.collectAll, n, acc ++ [init.get ⟨init.length - (n + 1), hidx⟩]⟩
          (2 * n + 1) := rfl
    rw [e1, e2, e3, ih (by omega), hdrop]
    simp

/-- Claim C6: starting after the handshake, `NewConn` executes every
configured init statement exactly once, in the configured order
(discarding each result via `CollectAll`), and resolves only after the
last one: the run of the step machine from `ReadMaxAllowedPacket` with
`init_len = init.length` ends in `done` with the executed trace equal to
the configured list. -/
theorem new_conn_executes_init_in_order (init : List String) :
    newConnRun init ⟨.readMaxAllowedPacket, init.length, []⟩
      (2 * init.length + 2) = ⟨.done, 0, init⟩ := by
  have h1 : newConnRun init ⟨.readMaxAllowedPacket, init.length, []⟩
      (2 * init.length + 2) =
      newConnRun init
        (newConnAdvance init ⟨.readWaitTimeout, init.length, []⟩)
        (2 * init.length) := rfl
  have hwt : newConnAdvance init ⟨.readWaitTimeout, init.length, []⟩ =
      newConnAdvance init ⟨.collectAll, init.length, []⟩ := by
    cases hget : init.get? (init.length - init.length) <;>
      simp [newConnAdvance, hget]
  have h2 : newConnRun init ⟨.collectAll, init.length, []⟩
      (2 * init.length + 1) =
      newConnRun init
        (newConnAdvance init ⟨.collectAll, init.length, []⟩)
        (2 * init.length) := rfl
  rw [h1, hwt, ← h2, newConnRun_collectAll init init.length (Nat.le_refl _) []]
  simp

/-! ## Prepared statements and the per-connection cache
(src/conn/futures/prepare.rs)

`InnerStmt` and the statement cache live in modules that are not under
src/; Modelled from the spec (sections 3 and 4.4): an `InnerStmt` holds
the server-assigned `statement_id`, the declared `num_params` and
`num_columns`, the collected `params`/`columns` metadata and the
`named_params` list; the cache maps post-rewrite SQL text to
`InnerStmt`.  Column metadata packets are kept as the packets
themselves (`Column::new` is a pure view over the packet). -/

structure InnerStmt where
  statement_id : Nat
  num_params : Nat
  num_columns : Nat
  params : Option (List Packet)
  columns : Option (List Packet)
  named_params : Option (List String)
deriving Repr, DecidableEq

/-- Per-connection statement cache, keyed by SQL text. -/
abbrev StmtCache := List (String × InnerStmt)

/-- Lookup in the statement cache. -/
def cacheGet (cache : StmtCache) (q : String) : Option InnerStmt :=
  match cache with
  | [] => none
  | (k, v) :: rest => if k = q then some v else cacheGet rest q

/-- Insertion into the statement cache. -/
def cacheInsert (cache : StmtCache) (q : String) (v : InnerStmt) : StmtCache :=
  (q, v) :: cache

/-- The first packet of a `COM_STMT_PREPARE` response followed by the
parameter/column definition packets the server sends next. -/
structure PrepareServerResp where
  statement_id : Nat
  num_params : Nat
  num_columns : Nat
  packets : List Packet
deriving Repr, DecidableEq

/-- Embedding of the `Out::ReadParamOrColumn` loop of `Prepare::poll`
(prepare.rs lines 109-129): fill `params` up to its capacity
(`num_params`), then fill `columns` up to `num_columns` skipping EOF
packets, and stop (discarding the packet just read) once both are full. -/
def read_params_columns :
    List Packet → List Packet → List Packet → Nat → Nat →
    List Packet × List Packet
  | [], params, columns, _, _ => (params, columns)
  | pkt :: rest, params, columns, num_params, num_columns =>
    if params.length < num_params then
      read_params_columns rest (params ++ [pkt]) columns num_params num_columns
    else if columns.length < num_columns then
      if pkt.kind ≠ .eof then
        read_params_columns rest params (columns ++ [pkt]) num_params
          num_columns
      else
        read_params_columns rest params columns num_params num_columns
    else (params, columns)

/-- Embedding of the `Prepare` future (prepare.rs `new` lines 51-83 and
`poll` lines 89-137), after `parse_named_params` has produced the
post-rewrite SQL text `query` and the `named_params` list.  `resp` is
the server's response, consulted only on a cache miss.  Returns the new
cache, the resulting `InnerStmt` and whether a `COM_STMT_PREPARE`
command was written. -/
def prepare_stmt (cache : StmtCache) (named_params : Option (List String))
    (query : String) (resp : PrepareServerResp) :
    StmtCache × InnerStmt × Bool :=
  match cacheGet cache query with
  | some cached => (cache, { cached with named_params := named_params }, false)
  | none =>
    let inner0 : InnerStmt :=
      { statement_id := resp.statement_id, num_params := resp.num_params,
        num_columns := resp.num_columns, params := none, columns := none,
        named_params := named_params }
    if inner0.num_params > 0 ∨ inner0.num_columns > 0 then
      let pc := read_params_columns resp.packets [] [] resp.num_params
        resp.num_columns
      let inner := { inner0 with params := some pc.1, columns := some pc.2 }
      (cacheInsert cache query inner, inner, true)
    else (cache, inner0, true)

/-- Server response for a statement with no parameters and no columns. -/
def respNoMeta : PrepareServerResp :=
  { statement_id := 1, num_params := 0, num_columns := 0, packets := [] }

/-- Claim C7 counterexample: a statement with zero parameters and zero
columns is never inserted into the cache (`Prepare::poll` returns from
the `ReadCommandResponse` arm without the cache insertion), so preparing
it twice writes `COM_STMT_PREPARE` both times, and the second
`InnerStmt` carries the second server response's statement id. -/
theorem prepare_no_meta_not_cached :
    (prepare_stmt [] none "DO 1" respNoMeta).2.2 = true ∧
    (prepare_stmt (prepare_stmt [] none "DO 1" respNoMeta).1 none "DO 1"
        { respNoMeta with statement_id := 2 }).2.2 = true ∧
    (prepare_stmt (prepare_stmt [] none "DO 1" respNoMeta).1 none "DO 1"
        { respNoMeta with statement_id := 2 }).2.1.statement_id = 2 ∧
    (prepare_stmt [] none "DO 1" respNoMeta).2.1.statement_id = 1 := by
  decide

/-- Claim C7 as amended: provided the statement declares at least one
parameter or at least one column, preparing the same post-rewrite SQL
text twice yields an `InnerStmt` with identical metadata (statement id,
parameter and column definitions) — the cached handle with only its
`named_params` refreshed from the second call — and the second prepare
writes no `COM_STMT_PREPARE`.  Statements with neither parameters nor
columns are not cached and are re-prepared each time. -/
theorem prepare_cache_hit_equivalence (cache : StmtCache)
    (np np2 : Option (List String)) (q : String)
    (resp resp2 : PrepareServerResp)
    (hmiss : cacheGet cache q = none)
    (hmeta : resp.num_params > 0 ∨ resp.num_columns > 0) :
    (prepare_stmt cache np q resp).2.2 = true ∧
    (prepare_stmt (prepare_stmt cache np q resp).1 np2 q resp2).2.2 = false ∧
    (prepare_stmt (prepare_stmt cache np q resp).1 np2 q resp2).2.1 =
      { (prepare_stmt cache np q resp).2.1 with named_params := np2 } := by
  simp only [prepare_stmt, hmiss]
  rw [if_pos hmeta]
  simp [cacheInsert, cacheGet]

/-- Server response with one parameter and one column: a parameter
definition packet, an EOF, a column definition packet, an EOF. -/
def respOneParamOneCol : PrepareServerResp :=
  { statement_id := 42, num_params := 1, num_columns := 1,
    packets := [{ kind := .other, affected_rows := 0, last_insert_id := 0,
                  status := 0, warnings := 0 },
                { kind := .eof, affected_rows := 0, last_insert_id := 0,
                  status := 0, warnings := 0 },
                { kind := .other, affected_rows := 1, last_insert_id := 0,
                  status := 0, warnings := 0 },
                { kind := .eof, affected_rows := 0, last_insert_id := 0,
                  status := 0, warnings := 0 }] }

/-- Witness for `prepare_cache_hit_equivalence` at a concrete statement
with one parameter and one column. -/
theorem prepare_cache_hit_equivalence_witness :
    (prepare_stmt [] (some ["x"]) "SELECT ?" respOneParamOneCol).2.2 = true ∧
    (prepare_stmt
        (prepare_stmt [] (some ["x"]) "SELECT ?" respOneParamOneCol).1
        (some ["y"]) "SELECT ?"
        { respOneParamOneCol with statement_id := 43 }).2.2 = false ∧
    (prepare_stmt
        (prepare_stmt [] (some ["x"]) "SELECT ?" respOneParamOneCol).1
        (some ["y"]) "SELECT ?"
        { respOneParamOneCol with statement_id := 43 }).2.1 =
      { (prepare_stmt [] (some ["x"]) "SELECT ?" respOneParamOneCol).2.1 with
        named_params := some ["y"] } :=
  prepare_cache_hit_equivalence [] (some ["x"]) (some ["y"]) "SELECT ?"
    respOneParamOneCol { respOneParamOneCol with statement_id := 43 }
    rfl (by decide)

/-! ## Result-set draining (src/queryable/query_result/mod.rs)

The server side of an in-flight query result is modelled as the row
packets of the current result set plus the row lists of the following
result sets; the terminator packet of a set carries
`SERVER_MORE_RESULTS_EXISTS` exactly when a following set exists.
`read_result_set` (invoked by `get_row_raw` on a more-results
terminator) is not under src/; Modelled from the spec (sections 4.3 and
4.5): it reads the next set's column packets and yields a `WithRows`
result over that set, setting the connection's pending result. -/

structure QRState where
  current : Option (List Packet)
  rest : List (List Packet)
  pending : Bool
deriving Repr, DecidableEq

/-- Embedding of `QueryResult::get_row_raw` (query_result/mod.rs lines
147-166): on an `Empty` result return no row; otherwise read one packet:
a row packet is returned, a terminator either crosses into the next
result set (`SERVER_MORE_RESULTS_EXISTS`) or turns the result into
`Empty`, clearing the connection's pending result (`into_empty` calls
`set_pending_result(None)`). -/
def get_row_raw : QRState → QRState × Option Packet
  | ⟨none, rest, pending⟩ => (⟨none, rest, pending⟩, none)
  | ⟨some (r :: rs), rest, pending⟩ => (⟨some rs, rest, pending⟩, some r)
  | ⟨some [], next :: rest2, _⟩ => (⟨some next, rest2, true⟩, none)
  | ⟨some [], [], _⟩ => (⟨none, [], false⟩, none)

/-- Termination measure: remaining row packets plus one terminator per
remaining result set. -/
def qrMeasure : QRState → Nat
  | ⟨none, _, _⟩ => 0
  | ⟨some cur, rest, _⟩ =>
    cur.length + 1 + (rest.map (fun s => s.length + 1)).sum

theorem get_row_raw_measure_lt (q : QRState) (h : ¬ q.current = none) :
    qrMeasure (get_row_raw q).1 < qrMeasure q := by
  obtain ⟨cur, rest, pending⟩ := q
  cases cur with
  | none => simp at h
  | some l =>
    cases l with
    | cons r rs => simp [get_row_raw, qrMeasure]
    | nil =>
      cases rest with
      | nil => simp [get_row_raw, qrMeasure]
      | cons next rest2 =>
        simp [get_row_raw, qrMeasure]

/-- Embedding of `QueryResult::drop_result` (query_result/mod.rs lines
331-340): `loop_fn` breaking with the inner connection once the result
`is_empty`, else pulling one raw row.  Also counts the row packets
drained. -/
def drop_result (q : QRState) : QRState × Nat :=
  if h : q.current = none then (q, 0)
  else
    let step := get_row_raw q
    let r := drop_result step.1
    (r.1, r.2 + if step.2.isSome then 1 else 0)
termination_by qrMeasure q
decreasing_by exact get_row_raw_measure_lt q h

theorem drop_result_none (rest : List (List Packet)) (pending : Bool) :
    drop_result ⟨none, rest, pending⟩ = (⟨none, rest, pending⟩, 0) := by
  rw [drop_result]
  simp

theorem drop_result_withRows :
    ∀ (rest : List (List Packet)) (cur : List Packet) (pending : Bool),
      drop_result ⟨some cur, rest, pending⟩ =
        (⟨none, [], false⟩, cur.length + (rest.map List.length).sum) := by
  intro rest
  induction rest with
  | nil =>
    intro cur pending
    induction cur with
    | nil =>
      rw [drop_result]
      simp [get_row_raw, drop_result_none]
    | cons r rs ihc =>
      rw [drop_result]
      simp [get_row_raw, ihc]
  | cons next rest2 ihr =>
    intro cur pending
    induction cur with
    | nil =>
      rw [drop_result]
      simp [get_row_raw, ihr next true]
    | cons r rs ihc =>
      rw [drop_result]
      simp [get_row_raw, ihc]
      omega

/-- Claim C8: `drop_result` drains every remaining row of every
remaining result set, crossing `SERVER_MORE_RESULTS_EXISTS` boundaries,
and resolves to the underlying connection only once the result is empty
with the pending result cleared.  Well-formedness: an `Empty` result has
no further sets and no pending result. -/
theorem drop_result_drains_all (q : QRState)
    (hwf : q.current = none → q.rest = [] ∧ q.pending = false) :
    (drop_result q).1 = ⟨none, [], false⟩ ∧
    (drop_result q).2 = (match q.current with
      | none => 0
      | some cur => cur.length + (q.rest.map List.length).sum) := by
  obtain ⟨cur, rest, pending⟩ := q
  cases cur with
  | none =>
    obtain ⟨h1, h2⟩ := hwf rfl
    subst h1
    subst h2
    simp [drop_result_none]
  | some cur =>
    simp [drop_result_withRows]

/-- Row packet used in the C8 witness. -/
def rowPacket : Packet :=
  { kind := .other, affected_rows := 0, last_insert_id := 0, status := 0,
    warnings := 0 }

/-- Witness for `drop_result_drains_all`: a two-set result (two rows,
then one row) is fully drained, three rows in total, and the pending
result is cleared. -/
theorem drop_result_drains_all_witness :
    (drop_result ⟨some [rowPacket, rowPacket], [[rowPacket]], true⟩).1 =
      ⟨none, [], false⟩ ∧
    (drop_result ⟨some [rowPacket, rowPacket], [[rowPacket]], true⟩).2 = 3 :=
  drop_result_drains_all ⟨some [rowPacket, rowPacket], [[rowPacket]], true⟩
    (by simp)

/-! ## Stream polling and the closed latch (src/io/mod.rs)

The socket is modelled as the list of successive outcomes of
`endpoint.read`: end of file (`Ok(0)`), a chunk of bytes, `WouldBlock`,
or a fatal I/O error.  An exhausted list behaves like `WouldBlock`.
The `proto` packet parser (`NewPacket`/`ParseResult`) is not under
src/; Modelled from the spec (section 4.1 framing): a packet is a
3-byte little-endian payload length, a 1-byte sequence id, then the
payload; payloads of length `2^24 - 1` are continuation-framed and
concatenated. -/

inductive ReadRes
  | eofRead
  | data (bytes : List Nat)
  | wouldBlock
  | fatal
deriving Repr, DecidableEq

/-- Embedding of the `loop` in `Stream::poll` (io/mod.rs lines 98-115)
that reads everything available from the endpoint into `buf`.  Returns
the new buffer, the remaining socket outcomes, and whether a
non-WouldBlock error was hit. -/
def readToBuf : List Nat → List ReadRes → List Nat × List ReadRes × Bool
  | buf, [] => (buf, [], false)
  | buf, .eofRead :: rest => (buf, rest, false)
  | buf, .wouldBlock :: rest => (buf, rest, false)
  | buf, .fatal :: rest => (buf, rest, true)
  | buf, .data bs :: rest => readToBuf (buf ++ bs) rest

/-- Partially assembled packet: collected header bytes of the current
frame, payload accumulated from earlier continuation frames, and
payload bytes of the current frame. -/
structure NewPacket where
  header : List Nat
  accum : List Nat
  cur : List Nat
deriving Repr, DecidableEq

inductive ParseResult
  | done (payload : List Nat) (seq_id : Nat)
  | needHeader (np : NewPacket) (needed : Nat)
  | incomplete (np : NewPacket) (needed : Nat)
deriving Repr, DecidableEq

/-- Maximum payload of a single frame (`2^24 - 1`); a frame of exactly
this length is continued by the next frame. -/
def maxFramePayload : Nat := 16777215

/-- Parse step of the framing layer (Modelled from the spec,
section 4.1). -/
def parsePacket (np : NewPacket) : ParseResult :=
  match np.header with
  | [b0, b1, b2, b3] =>
    let len := b0 + 256 * b1 + 65536 * b2
    if np.cur.length < len then
      .incomplete np (len - np.cur.length)
    else if len = maxFramePayload then
      .needHeader { header := [], accum := np.accum ++ np.cur, cur := [] } 4
    else
      .done (np.accum ++ np.cur) b3
  | _ => .needHeader np (4 - np.header.length)

def emptyNewPacket : NewPacket := ⟨[], [], []⟩

/-- State of `io::Stream` as used by `Stream::poll`: the `closed` latch,
the byte buffer, and the in-progress parse (`next_packet` is always
`Some` in the source). -/
structure StreamSt where
  closed : Bool
  buf : List Nat
  next_packet : ParseResult
deriving Repr, DecidableEq

inductive StreamPollRes
  | ready (payload : List Nat) (seq_id : Nat)
  | readyNone
  | notReady
  | ioError
deriving Repr, DecidableEq

/-- Embedding of `Stream::poll` (io/mod.rs lines 94-167).  If `closed`,
return `Ready(None)` immediately without touching the socket.  Else
drain the socket into `buf`; a fatal read error sets `closed` and
surfaces the error.  Then step the packet parser: a completed packet is
returned and the parser reset; otherwise up to `needed` buffered bytes
are fed to the parser and, if the buffer was non-empty (`should_poll`),
poll recurses.  `fuel` bounds that recursion (the source recurses on
actual progress); every theorem below holds for every fuel. -/
def streamPoll : Nat → StreamSt → List ReadRes →
    StreamPollRes × StreamSt × List ReadRes
  | fuel, st, socket =>
    if st.closed then
      (.readyNone, st, socket)
    else
      let rd := readToBuf st.buf socket
      if rd.2.2 then
        (.ioError, { st with closed := true, buf := rd.1 }, rd.2.1)
      else
        match st.next_packet with
        | .done payload seq_id =>
          (.ready payload seq_id,
           { st with buf := rd.1, next_packet := parsePacket emptyNewPacket },
           rd.2.1)
        | .needHeader np needed =>
          let tk := min needed rd.1.length
          let np1 := { np with header := np.header ++ rd.1.take tk }
          let st1 : StreamSt :=
            { st with buf := rd.1.drop tk, next_packet := parsePacket np1 }
          if rd.1.length ≠ 0 then
            match fuel with
            | 0 => (.notReady, st1, rd.2.1)
            | fuel1 + 1 => streamPoll fuel1 st1 rd.2.1
          else (.notReady, st1, rd.2.1)
        | .incomplete np needed =>
          let tk := min needed rd.1.length
          let np1 := { np with cur := np.cur ++ rd.1.take tk }
          let st1 : StreamSt :=
            { st with buf := rd.1.drop tk, next_packet := parsePacket np1 }
          if rd.1.length ≠ 0 then
            match fuel with
            | 0 => (.notReady, st1, rd.2.1)
            | fuel1 + 1 => streamPoll fuel1 st1 rd.2.1
          else (.notReady, st1, rd.2.1)

/-- Claim C10: the `closed` flag is a latch.  A poll on a closed stream
returns `Ready(None)` immediately, with the stream state and the socket
untouched; and whenever a poll surfaces an I/O error (which only a
non-WouldBlock read error does), the resulting state has `closed =
true` — so the error is surfaced at most once and later reads observe
end of stream. -/
theorem stream_closed_latch (fuel : Nat) (st : StreamSt)
    (socket : List ReadRes) :
    (st.closed = true →
      streamPoll fuel st socket = (.readyNone, st, socket)) ∧
    ((streamPoll fuel st socket).1 = .ioError →
      (streamPoll fuel st socket).2.1.closed = true) := by
  induction fuel generalizing st socket with
  | zero =>
    constructor
    · intro h
      rw [streamPoll]
      simp [h]
    · intro herr
      rw [streamPoll] at herr ⊢
      by_cases h : st.closed
      · simp [h] at herr
      · simp only [h] at herr ⊢
        by_cases he : (readToBuf st.buf socket).2.2
        · simp [he]
        · simp only [he] at herr ⊢
          cases hnp : st.next_packet <;>
            simp [hnp] at herr ⊢
  | succ n ih =>
    constructor
    · intro h
      rw [streamPoll]
      simp [h]
    · intro herr
      rw [streamPoll] at herr ⊢
      by_cases h : st.closed
      · simp [h] at herr
      · simp only [h] at herr ⊢
        by_cases he : (readToBuf st.buf socket).2.2
        · simp [he]
        · simp only [he] at herr ⊢
          cases hnp : st.next_packet with
          | done payload seq_id => simp [hnp] at herr
          | needHeader np needed =>
            simp only [hnp] at herr ⊢
            by_cases hb : (readToBuf st.buf socket).1.length ≠ 0
            · rw [if_pos hb] at herr ⊢
              exact (ih _ _).2 herr
            · simp [hb] at herr
          | incomplete np needed =>
            simp only [hnp] at herr ⊢
            by_cases hb : (readToBuf st.buf socket).1.length ≠ 0
            · rw [if_pos hb] at herr ⊢
              exact (ih _ _).2 herr
            · simp [hb] at herr

/-- Closed stream used in the C10 witness. -/
def closedStream : StreamSt :=
  { closed := true, buf := [], next_packet := parsePacket emptyNewPacket }

/-- Witness for `stream_closed_latch`: polling a closed stream yields
`Ready(None)` and leaves state and socket alone, even with readable
data (and an error) still queued on the socket. -/
theorem stream_closed_latch_witness :
    streamPoll 3 closedStream [.data [1, 0, 0], .fatal] =
      (.readyNone, closedStream, [.data [1, 0, 0], .fatal]) :=
  (stream_closed_latch 3 closedStream [.data [1, 0, 0], .fatal]).1 rfl

end MysqlAsync
